import Mathlib

/-!
Shallow embedding of the request-admission and credential core of the
fastapi starter repository: app/core/rate_limiter.py, app/core/security.py
and the constants of app/core/config.py.  Machine integers are modelled as
Lean Int (Python ints are unbounded), timestamps as Int seconds, and the
per-client request store as an association list mirroring the Python dict.
-/

/-! ### Configuration constants (app/core/config.py, class Settings) -/

def MAX_REQUEST_LIMIT_FOR_GENERAL_API : Int := 100

def WINDOW_FOR_GENERAL_API : Int := 60

def MAX_REQUEST_LIMIT_FOR_AUTH : Int := 5

def WINDOW_FOR_AUTH_API : Int := 300

/-- Settings.JWT_SECRET, config.py line 25: the value of the JWT_SECRET
environment variable when set, else the literal fallback of os.getenv. -/
def settings_JWT_SECRET (env : Option String) : String :=
  env.getD "your-secret-key"

/-! ### Rate limiter (app/core/rate_limiter.py, class RateLimiter)

The store field self.requests is a defaultdict from client ip to a list of
(timestamp, endpoint) pairs; a missing key reads as the empty list.  The
outcome of check_rate_limit is either a normal return (Allow) or an
HTTPException with status 429 whose detail reports max_requests and
window_seconds (Reject). -/

abbrev Entry := Int × String

abbrev RLState := List (String × List Entry)

/-- Reading self.requests at a key: the stored list, or the defaultdict
default [] when the client has no record yet. -/
def lookupIp : RLState → String → List Entry
  | [], _ => []
  | (k, v) :: rest, ip => if k = ip then v else lookupIp rest ip

/-- Writing self.requests at a key: replace the first binding in place
(Python dict assignment keeps the key position), or append a new binding. -/
def setIp : RLState → String → List Entry → RLState
  | [], ip, v => [(ip, v)]
  | (k, w) :: rest, ip, v =>
    if k = ip then (k, v) :: rest else (k, w) :: setIp rest ip v

/-- Result of one check_rate_limit call: normal return, or the 429
HTTPException carrying max_requests and window_seconds in its detail. -/
inductive RLResult
  | allow
  | reject (max_requests window_seconds : Int)
deriving DecidableEq

/-- RateLimiter.check_rate_limit (rate_limiter.py lines 25-68), for a fixed
client ip and endpoint at wall-clock second now.  Steps, as in the source:
prune the whole per-client list at cutoff now - window_seconds, count the
remaining entries for this endpoint, reject via HTTP 429 when the count has
reached max_requests (the prune is already stored at that point), else
append (now, endpoint) and allow. -/
def check_rate_limit (s : RLState) (client_ip endpoint : String)
    (max_requests window_seconds now : Int) : RLResult × RLState :=
  let cutoff_time := now - window_seconds
  let pruned := (lookupIp s client_ip).filter (fun e => cutoff_time < e.1)
  let endpoint_requests := pruned.filter (fun e => e.2 = endpoint)
  if max_requests ≤ (endpoint_requests.length : Int) then
    (RLResult.reject max_requests window_seconds, setIp s client_ip pruned)
  else
    (RLResult.allow, setIp s client_ip (pruned ++ [(now, endpoint)]))

/-- The store of a freshly constructed RateLimiter: an empty dict. -/
def emptyRL : RLState := []

/-- A sequence of check_rate_limit calls for one client and endpoint, in
order, threading the store; returns the list of outcomes and the final
store.  This is the sequential execution the per-limiter asyncio.Lock
enforces for any set of concurrent calls. -/
def runChecks (ip ep : String) (maxReq window : Int) :
    RLState → List Int → List RLResult × RLState
  | s, [] => ([], s)
  | s, t :: rest =>
    let r := check_rate_limit s ip ep maxReq window t
    let rs := runChecks ip ep maxReq window r.2 rest
    (r.1 :: rs.1, rs.2)

theorem lookupIp_setIp_self (s : RLState) (ip : String) (v : List Entry) :
    lookupIp (setIp s ip v) ip = v := by
  induction s with
  | nil => simp [setIp, lookupIp]
  | cons p rest ih =>
    obtain ⟨k, w⟩ := p
    by_cases h : k = ip
    · simp [setIp, lookupIp, h]
    · simp [setIp, lookupIp, h, ih]

theorem lookupIp_setIp_ne (s : RLState) (ip ip2 : String) (v : List Entry)
    (h : ip2 ≠ ip) : lookupIp (setIp s ip v) ip2 = lookupIp s ip2 := by
  induction s with
  | nil =>
    have h2 : ¬ ip = ip2 := fun hh => h hh.symm
    simp [setIp, lookupIp, h2]
  | cons p rest ih =>
    obtain ⟨k, w⟩ := p
    by_cases hk : k = ip
    · subst hk
      have h2 : ¬ k = ip2 := fun hh => h hh.symm
      simp [setIp, lookupIp, h2]
    · by_cases hk2 : k = ip2 <;> simp [setIp, lookupIp, hk, hk2, ih, h]

/-- One check in which no stored entry falls outside the window and every
stored entry is for the checked endpoint: the prune keeps everything, the
count is the full length, and the call either rejects (storing the pruned
list, i.e. the unchanged list) or appends the new entry. -/
theorem check_step (s : RLState) (ip ep : String) (maxReq window now : Int)
    (hkeep : ∀ e ∈ lookupIp s ip, now - window < e.1 ∧ e.2 = ep) :
    check_rate_limit s ip ep maxReq window now
      = if maxReq ≤ ((lookupIp s ip).length : Int)
        then (RLResult.reject maxReq window, setIp s ip (lookupIp s ip))
        else (RLResult.allow, setIp s ip (lookupIp s ip ++ [(now, ep)])) := by
  have h1 : (lookupIp s ip).filter (fun e => decide (now - window < e.1))
      = lookupIp s ip := by
    rw [List.filter_eq_self]
    intro e he
    simpa using (hkeep e he).1
  have h2 : (lookupIp s ip).filter (fun e => decide (e.2 = ep))
      = lookupIp s ip := by
    rw [List.filter_eq_self]
    intro e he
    simpa using (hkeep e he).2
  simp only [check_rate_limit, h1, h2]

/-- Sequential execution of checks for one client and endpoint, all the
stored entries and all the check times lying inside one window interval
from t0 (inclusive) to t0 + window (exclusive): the outcomes are Allows
until the per-endpoint count reaches max_requests and Rejects after, and
the final store holds the old entries followed by the admitted times. -/
theorem runChecks_spec (ip ep : String) (maxReq window t0 : Int) :
    ∀ (L : List Int) (s : RLState),
      (∀ t ∈ L, t0 ≤ t ∧ t < t0 + window) →
      (∀ e ∈ lookupIp s ip, (t0 ≤ e.1 ∧ e.1 < t0 + window) ∧ e.2 = ep) →
      (runChecks ip ep maxReq window s L).1
          = List.replicate (min L.length (maxReq - (lookupIp s ip).length).toNat)
              RLResult.allow
            ++ List.replicate
                (L.length - min L.length (maxReq - (lookupIp s ip).length).toNat)
                (RLResult.reject maxReq window)
      ∧ lookupIp (runChecks ip ep maxReq window s L).2 ip
          = lookupIp s ip
            ++ (L.take (min L.length (maxReq - (lookupIp s ip).length).toNat)).map
                (fun t => (t, ep)) := by
  intro L
  induction L with
  | nil => intro s _ _; simp [runChecks]
  | cons t rest ih =>
    intro s hL hs
    have ht : t0 ≤ t ∧ t < t0 + window := hL t (List.mem_cons_self t rest)
    have hrest : ∀ u ∈ rest, t0 ≤ u ∧ u < t0 + window :=
      fun u hu => hL u (List.mem_cons_of_mem t hu)
    have hkeep : ∀ e ∈ lookupIp s ip, t - window < e.1 ∧ e.2 = ep := by
      intro e he
      refine ⟨?_, (hs e he).2⟩
      have h1 := (hs e he).1.1
      have h2 := ht.2
      omega
    simp only [runChecks]
    rw [check_step s ip ep maxReq window t hkeep]
    by_cases hc : maxReq ≤ ((lookupIp s ip).length : Int)
    · rw [if_pos hc]
      have hlook : lookupIp (setIp s ip (lookupIp s ip)) ip = lookupIp s ip :=
        lookupIp_setIp_self s ip (lookupIp s ip)
      have hs' : ∀ e ∈ lookupIp (setIp s ip (lookupIp s ip)) ip,
          (t0 ≤ e.1 ∧ e.1 < t0 + window) ∧ e.2 = ep := by
        rw [hlook]; exact hs
      obtain ⟨ih1, ih2⟩ := ih (setIp s ip (lookupIp s ip)) hrest hs'
      rw [hlook] at ih1 ih2
      have hz : (maxReq - ((lookupIp s ip).length : Int)).toNat = 0 := by omega
      rw [hz] at ih1 ih2
      have hz2 : min ((t :: rest).length) (maxReq - ((lookupIp s ip).length : Int)).toNat
          = 0 := by rw [hz]; exact Nat.min_zero _
      constructor
      · rw [hz2]
        simp only [Nat.min_zero, List.replicate_zero, List.nil_append,
          Nat.sub_zero, List.length_cons] at ih1 ⊢
        rw [ih1, List.replicate_succ]
      · rw [hz2]
        simp only [Nat.min_zero, List.take_zero, List.map_nil, List.append_nil] at ih2 ⊢
        exact ih2
    · rw [if_neg hc]
      have hlook : lookupIp (setIp s ip (lookupIp s ip ++ [(t, ep)])) ip
          = lookupIp s ip ++ [(t, ep)] :=
        lookupIp_setIp_self s ip (lookupIp s ip ++ [(t, ep)])
      have hs' : ∀ e ∈ lookupIp (setIp s ip (lookupIp s ip ++ [(t, ep)])) ip,
          (t0 ≤ e.1 ∧ e.1 < t0 + window) ∧ e.2 = ep := by
        rw [hlook]
        intro e he
        rcases List.mem_append.mp he with h | h
        · exact hs e h
        · have : e = (t, ep) := by simpa using h
          rw [this]
          exact ⟨⟨ht.1, ht.2⟩, rfl⟩
      obtain ⟨ih1, ih2⟩ := ih (setIp s ip (lookupIp s ip ++ [(t, ep)])) hrest hs'
      rw [hlook] at ih1 ih2
      simp only [List.length_append, List.length_singleton] at ih1 ih2
      push_cast at ih1 ih2
      have hmin : min ((t :: rest).length)
            ((maxReq - ((lookupIp s ip).length : Int)).toNat)
          = min rest.length
              ((maxReq - (((lookupIp s ip).length : Int) + 1)).toNat) + 1 := by
        simp only [List.length_cons]
        omega
      have hsub : (t :: rest).length
            - (min rest.length
                ((maxReq - (((lookupIp s ip).length : Int) + 1)).toNat) + 1)
          = rest.length
            - min rest.length
                ((maxReq - (((lookupIp s ip).length : Int) + 1)).toNat) := by
        simp only [List.length_cons]
        omega
      constructor
      · rw [hmin, hsub, List.replicate_succ, List.cons_append, ih1]
      · rw [hmin, List.take_succ_cons, List.map_cons, ih2]
        simp

/-! ### Rate limiter: claim theorems -/

/-- Claim C1, amended: for every client, route and policy with
max_requests at least 1 and window_seconds at least 1, if a client issues
N at most max_requests checks for one route all within one window (all the
check times lie in an interval of length window_seconds), every one of the
N calls returns Allow; and when N equals max_requests, one further check
for that client and route inside the same window returns Reject, the 429
error reporting max_requests and window_seconds.  (The original claim
asserted the further check rejects for every N at most max_requests; that
fails for N strictly below max_requests, see the counterexample.) -/
theorem c1_allow_upto_limit_then_reject (ip ep : String)
    (maxReq window t0 : Int) (L : List Int) (tF : Int)
    (hmax : 1 ≤ maxReq) (hwin : 1 ≤ window)
    (hL : ∀ t ∈ L, t0 ≤ t ∧ t < t0 + window)
    (hF : t0 ≤ tF ∧ tF < t0 + window)
    (hN : (L.length : Int) ≤ maxReq) :
    (runChecks ip ep maxReq window emptyRL L).1
      = List.replicate L.length RLResult.allow
    ∧ ((L.length : Int) = maxReq →
        (check_rate_limit (runChecks ip ep maxReq window emptyRL L).2
            ip ep maxReq window tF).1
          = RLResult.reject maxReq window) := by
  have hs0 : ∀ e ∈ lookupIp emptyRL ip,
      (t0 ≤ e.1 ∧ e.1 < t0 + window) ∧ e.2 = ep := by
    intro e he
    simp [emptyRL, lookupIp] at he
  obtain ⟨h1, h2⟩ := runChecks_spec ip ep maxReq window t0 L emptyRL hL hs0
  have hlen0 : lookupIp emptyRL ip = [] := rfl
  rw [hlen0] at h1 h2
  simp only [List.length_nil, Nat.cast_zero, Int.sub_zero, List.nil_append] at h1 h2
  have hminL : min L.length (maxReq.toNat) = L.length := by omega
  rw [hminL] at h1 h2
  simp only [Nat.sub_self, List.replicate_zero, List.append_nil] at h1
  rw [List.take_length] at h2
  refine ⟨h1, fun hEq => ?_⟩
  have hkeep : ∀ e ∈ lookupIp (runChecks ip ep maxReq window emptyRL L).2 ip,
      tF - window < e.1 ∧ e.2 = ep := by
    rw [h2]
    intro e he
    obtain ⟨t, ht, rfl⟩ := List.mem_map.mp he
    have := hL t ht
    exact ⟨by omega, rfl⟩
  rw [check_step _ ip ep maxReq window tF hkeep, h2]
  have hlenmap : ((L.map (fun t => ((t : Int), ep))).length : Int) = maxReq := by
    rw [List.length_map]; exact hEq
  rw [if_pos (le_of_eq hlenmap.symm)]

/-- Witness for C1 at the concrete policy max_requests 2, window 10:
two checks at seconds 0 and 1 both Allow, and a third at second 2
rejects. -/
theorem c1_witness :
    (runChecks "1.2.3.4" "/login" 2 10 emptyRL [0, 1]).1
      = List.replicate (List.length [(0 : Int), 1]) RLResult.allow
    ∧ (check_rate_limit (runChecks "1.2.3.4" "/login" 2 10 emptyRL [0, 1]).2
          "1.2.3.4" "/login" 2 10 2).1 = RLResult.reject 2 10 :=
  have h := c1_allow_upto_limit_then_reject "1.2.3.4" "/login" 2 10 0 [0, 1] 2
    (by decide) (by decide) (by decide) (by decide) (by decide)
  ⟨h.1, h.2 (by decide)⟩

/-- Counterexample to C1 as frozen: with max_requests 2 and window 10,
a client issues N = 1 check (N at most max_requests) at second 0; the
claim asserts the second check inside the same window returns Reject, but
check_rate_limit returns Allow (1 recorded request is below the limit). -/
theorem c1_counterexample :
    (check_rate_limit (runChecks "1.2.3.4" "/login" 2 10 emptyRL [0]).2
        "1.2.3.4" "/login" 2 10 1).1 = RLResult.allow
    ∧ (check_rate_limit (runChecks "1.2.3.4" "/login" 2 10 emptyRL [0]).2
        "1.2.3.4" "/login" 2 10 1).1 ≠ RLResult.reject 2 10 := by
  constructor
  · decide
  · decide

/-- Claim C6: when check_rate_limit rejects, the reported limits are the
policy's max_requests and window_seconds, and the only change to the
client's stored window is the pruning of entries at or before
now - window_seconds; the current attempt is not appended. -/
theorem c6_reject_records_nothing (s : RLState) (ip ep : String)
    (maxReq window now m w : Int)
    (h : (check_rate_limit s ip ep maxReq window now).1 = RLResult.reject m w) :
    m = maxReq ∧ w = window
    ∧ lookupIp (check_rate_limit s ip ep maxReq window now).2 ip
        = (lookupIp s ip).filter (fun e => now - window < e.1) := by
  simp only [check_rate_limit] at h ⊢
  split at h
  next hcond =>
    simp only at h
    obtain ⟨hm, hw⟩ := (RLResult.reject.injEq _ _ _ _).mp h.symm
    refine ⟨hm, hw, ?_⟩
    rw [if_pos hcond]
    exact lookupIp_setIp_self s ip _
  next hcond =>
    simp at h

/-- Witness for C6: one live entry at second 3 under max_requests 1,
window 60, checked at second 5; the stale entry at second -100 is pruned,
the attempt is rejected and not recorded. -/
theorem c6_witness :
    (1 : Int) = 1 ∧ (60 : Int) = 60
    ∧ lookupIp (check_rate_limit [("1.2.3.4", [(-100, "/login"), (3, "/login")])]
          "1.2.3.4" "/login" 1 60 5).2 "1.2.3.4"
        = (lookupIp [("1.2.3.4", [(-100, "/login"), (3, "/login")])] "1.2.3.4").filter
            (fun e => 5 - 60 < e.1) :=
  c6_reject_records_nothing [("1.2.3.4", [(-100, "/login"), (3, "/login")])]
    "1.2.3.4" "/login" 1 60 5 1 60 (by decide)

/-- Claim C7: the window slides.  A client whose every stored entry is at
or before second T is allowed again by the first check after strictly more
than window_seconds have elapsed since T, for any policy with max_requests
at least 1. -/
theorem c7_window_slides (s : RLState) (ip ep : String)
    (maxReq window T now : Int)
    (hmax : 1 ≤ maxReq)
    (hold : ∀ e ∈ lookupIp s ip, e.1 ≤ T)
    (helapsed : T + window < now) :
    (check_rate_limit s ip ep maxReq window now).1 = RLResult.allow := by
  have hprune : (lookupIp s ip).filter (fun e => decide (now - window < e.1)) = [] := by
    rw [List.filter_eq_nil_iff]
    intro e he
    have := hold e he
    simp only [decide_eq_true_eq]
    omega
  simp only [check_rate_limit, hprune, List.filter_nil, List.length_nil,
    Nat.cast_zero]
  rw [if_neg (by omega)]

/-- Witness for C7: a client at its limit (1 entry, max_requests 1) at
second 0 is allowed again at second 11 under window 10. -/
theorem c7_witness :
    (check_rate_limit [("1.2.3.4", [(0, "/login")])] "1.2.3.4" "/login" 1 10 11).1
      = RLResult.allow :=
  c7_window_slides [("1.2.3.4", [(0, "/login")])] "1.2.3.4" "/login" 1 10 0 11
    (by decide) (by decide) (by decide)

/-- Claim C8: 2 times max_requests checks for one client and route under
one policy, all inside one window (the serialization of simultaneous calls
enforced by the limiter's asyncio.Lock, in any order the lock grants them),
yield exactly max_requests Allows followed by Rejects: the Allow count and
the Reject count both equal max_requests, for every schedule. -/
theorem c8_concurrent_admission (ip ep : String) (maxReq window t0 : Int)
    (L : List Int)
    (hmax : 1 ≤ maxReq) (hwin : 1 ≤ window)
    (hL : ∀ t ∈ L, t0 ≤ t ∧ t < t0 + window)
    (hlen : (L.length : Int) = 2 * maxReq) :
    (runChecks ip ep maxReq window emptyRL L).1
      = List.replicate maxReq.toNat RLResult.allow
        ++ List.replicate maxReq.toNat (RLResult.reject maxReq window)
    ∧ ((runChecks ip ep maxReq window emptyRL L).1).count RLResult.allow
        = maxReq.toNat
    ∧ ((runChecks ip ep maxReq window emptyRL L).1).count
        (RLResult.reject maxReq window) = maxReq.toNat := by
  have hs0 : ∀ e ∈ lookupIp emptyRL ip,
      (t0 ≤ e.1 ∧ e.1 < t0 + window) ∧ e.2 = ep := by
    intro e he
    simp [emptyRL, lookupIp] at he
  obtain ⟨h1, _⟩ := runChecks_spec ip ep maxReq window t0 L emptyRL hL hs0
  have hlen0 : lookupIp emptyRL ip = [] := rfl
  rw [hlen0] at h1
  simp only [List.length_nil, Nat.cast_zero, Int.sub_zero] at h1
  have hminL : min L.length (maxReq.toNat) = maxReq.toNat := by omega
  have hsub : L.length - maxReq.toNat = maxReq.toNat := by omega
  rw [hminL, hsub] at h1
  refine ⟨h1, ?_, ?_⟩
  · rw [h1]
    simp [List.count_append, List.count_replicate_self, List.count_replicate]
  · rw [h1]
    simp [List.count_append, List.count_replicate_self, List.count_replicate]

/-- Witness for C8: a schedule of 2 simultaneous checks under
max_requests 1, window 10 gives exactly one Allow then one Reject. -/
theorem c8_witness :
    (runChecks "1.2.3.4" "/login" 1 10 emptyRL [5, 5]).1
      = List.replicate (1 : Int).toNat RLResult.allow
        ++ List.replicate (1 : Int).toNat (RLResult.reject 1 10)
    ∧ ((runChecks "1.2.3.4" "/login" 1 10 emptyRL [5, 5]).1).count RLResult.allow
        = (1 : Int).toNat
    ∧ ((runChecks "1.2.3.4" "/login" 1 10 emptyRL [5, 5]).1).count
        (RLResult.reject 1 10) = (1 : Int).toNat :=
  c8_concurrent_admission "1.2.3.4" "/login" 1 10 0 [5, 5]
    (by decide) (by decide) (by decide) (by decide)

/-- Claim C9: every check prunes the client's whole entry list with the
window_seconds of the policy passed to that call, across all routes: after
check_rate_limit returns, every entry stored for the client, whatever its
route, has a timestamp strictly newer than now - window_seconds. -/
theorem c9_prune_all_routes (s : RLState) (ip ep : String)
    (maxReq window now : Int) (hwin : 0 < window) :
    ((lookupIp (check_rate_limit s ip ep maxReq window now).2 ip).all
        (fun e => now - window < e.1)) = true := by
  rw [List.all_eq_true]
  intro e he
  simp only [check_rate_limit] at he
  split at he
  next =>
    simp only [lookupIp_setIp_self] at he
    simpa using (List.mem_filter.mp he).2
  next =>
    simp only [lookupIp_setIp_self] at he
    rcases List.mem_append.mp he with h | h
    · simpa using (List.mem_filter.mp h).2
    · have : e = (now, ep) := by simpa using h
      rw [this]
      simpa using hwin

/-- Witness for C9: a check under the strict auth policy at second 200
leaves no entry for the client, on any route, older than the auth
window. -/
theorem c9_witness :
    ((lookupIp (check_rate_limit [("1.2.3.4", [(-1000, "/a"), (100, "/b")])]
          "1.2.3.4" "/login" MAX_REQUEST_LIMIT_FOR_AUTH WINDOW_FOR_AUTH_API 200).2
        "1.2.3.4").all (fun e => 200 - WINDOW_FOR_AUTH_API < e.1)) = true :=
  c9_prune_all_routes [("1.2.3.4", [(-1000, "/a"), (100, "/b")])]
    "1.2.3.4" "/login" MAX_REQUEST_LIMIT_FOR_AUTH WINDOW_FOR_AUTH_API 200
    (by decide)


/-! ### Credential engine (app/core/security.py)

The two password primitives call hashlib.sha256 and the passlib bcrypt
context; the token primitives call jose.jwt.encode and jose.jwt.decode.
Those libraries are outside the repository, so they are modelled from the
spec: the digest is a deterministic, fixed-size, collision-free one-way
function (idealized here as an injective encoding), the adaptive hash is a
salted key-derivation whose stored output embeds its salt, and the signer
is an HMAC idealized as the injective pair of secret and payload.  The
salt drawn by bcrypt and the wall clock are explicit parameters. -/

/-- Modelled from the spec: hashlib.sha256(...).hexdigest() of
security.py lines 28 and 36 is not in src.  The spec calls it a fast,
deterministic, fixed-size one-way digest; it is idealized as an injective
encoding of the input bytes. -/
def sha256_hexdigest (s : String) : String :=
  String.mk ('#' :: s.data)

/-- Modelled from the spec: the bcrypt key derivation inside passlib is
not in src; idealized as a collision-free function of the salt and key. -/
def bcrypt_kdf (salt : Nat) (key : String) : String := key

/-- A stored bcrypt hash: the spec says the output embeds the salt so no
separate storage is needed. -/
structure BcryptHash where
  salt : Nat
  digest : String
deriving DecidableEq

/-- Modelled from the spec: pwd_context.hash draws a random salt and
applies the salted adaptive hash; the salt is an explicit parameter. -/
def pwd_context_hash (key : String) (salt : Nat) : BcryptHash :=
  ⟨salt, bcrypt_kdf salt key⟩

/-- Modelled from the spec: pwd_context.verify recomputes the derivation
at the stored salt and compares constant-time. -/
def pwd_context_verify (key : String) (h : BcryptHash) : Bool :=
  bcrypt_kdf h.salt key == h.digest

/-- get_password_hash (security.py lines 25-29): sha256 hexdigest of the
password, then the salted bcrypt hash of the 64-character digest. -/
def get_password_hash (password : String) (salt : Nat) : BcryptHash :=
  pwd_context_hash (sha256_hexdigest password) salt

/-- verify_password (security.py lines 32-37): recompute the sha256
hexdigest and check it against the stored bcrypt hash. -/
def verify_password (plain_password : String) (hashed_password : BcryptHash) : Bool :=
  pwd_context_verify (sha256_hexdigest plain_password) hashed_password

theorem sha256_hexdigest_injective (a b : String)
    (h : sha256_hexdigest a = sha256_hexdigest b) : a = b := by
  have hd : ('#' :: a.data) = ('#' :: b.data) := congrArg String.data h
  have hdata : a.data = b.data := List.cons_injective hd
  exact congrArg String.mk hdata

/-! ### Token issuance and validation (app/core/security.py) -/

/-- A decoded claim value: token claims in this service are strings (sub)
or integers (exp, a POSIX timestamp). -/
inductive JValue
  | str (s : String)
  | num (n : Int)
deriving DecidableEq

abbrev Claims := List (String × JValue)

/-- Reading a claim: Python dict .get, none when the key is absent. -/
def lookupClaim : Claims → String → Option JValue
  | [], _ => none
  | (k, v) :: rest, key => if k = key then some v else lookupClaim rest key

/-- Writing a claim: Python dict update keeps the position of an existing
key and appends a new one. -/
def setClaim : Claims → String → JValue → Claims
  | [], key, v => [(key, v)]
  | (k, w) :: rest, key, v =>
    if k = key then (k, v) :: rest else (k, w) :: setClaim rest key v

/-- Modelled from the spec: the HS256 MAC of jose is not in src;
idealized as the injective pair of the signing secret and the payload. -/
def hmac_sign (secret : String) (payload : Claims) : String × Claims :=
  (secret, payload)

/-- A structurally well-formed JWT: its payload and its signature. -/
structure SignedToken where
  payload : Claims
  sig : String × Claims
deriving DecidableEq

/-- A token string on the wire: either a well-formed JWT or garbage that
fails to parse. -/
inductive TokenWire
  | signed (t : SignedToken)
  | malformed (s : String)
deriving DecidableEq

/-- jose.JWTError as raised by jwt.decode: signature/format errors and the
ExpiredSignatureError subclass. -/
inductive JWTError
  | invalid
  | expired
deriving DecidableEq

/-- Modelled from the spec: jose.jwt.encode is not in src; it signs the
claim set with the secret under the fixed algorithm and returns the
encoded token. -/
def jwt_encode (secret : String) (claims : Claims) : TokenWire :=
  TokenWire.signed ⟨claims, hmac_sign secret claims⟩

/-- Modelled from the spec: jose.jwt.decode is not in src.  It rejects
malformed tokens and wrong signatures; when an exp claim is present it is
coerced to an integer (Python int, rejecting non-numeric strings) and
compared with the clock, raising the expired error when it lies strictly
in the past; a payload without exp passes (jose does not require exp by
default, and the repository passes no options requiring it). -/
def jwt_decode (w : TokenWire) (secret : String) (now : Int) :
    Except JWTError Claims :=
  match w with
  | TokenWire.malformed _ => Except.error JWTError.invalid
  | TokenWire.signed t =>
    if t.sig = hmac_sign secret t.payload then
      match lookupClaim t.payload "exp" with
      | none => Except.ok t.payload
      | some (JValue.num e) =>
        if e < now then Except.error JWTError.expired else Except.ok t.payload
      | some (JValue.str s) =>
        match s.toInt? with
        | some e =>
          if e < now then Except.error JWTError.expired else Except.ok t.payload
        | none => Except.error JWTError.invalid
    else Except.error JWTError.invalid

/-- create_access_token (security.py lines 40-48): copy the data, set exp
to now plus the delta when a truthy delta is given (timedelta(0) is falsy
in Python) else now plus 15 minutes, and sign with settings.JWT_SECRET. -/
def create_access_token (data : Claims) (expires_delta : Option Int)
    (secret : String) (now : Int) : TokenWire :=
  let expire :=
    match expires_delta with
    | some d => if d = 0 then now + 15 * 60 else now + d
    | none => now + 15 * 60
  let to_encode := setClaim data "exp" (JValue.num expire)
  jwt_encode secret to_encode

/-- Outcome of get_current_user: the decoded payload, or the uniform 401
credentials_exception (detail: could not validate credentials). -/
inductive AuthResult
  | ok (payload : Claims)
  | unauthorized
deriving DecidableEq

/-- get_current_user (security.py lines 53-78): decode with the secret;
any JWTError and a payload whose sub claim is absent give the single
uniform 401; otherwise the full decoded payload is returned with no store
lookup (the user-store query is commented out in the source). -/
def get_current_user (token : TokenWire) (secret : String) (now : Int) :
    AuthResult :=
  match jwt_decode token secret now with
  | Except.error _ => AuthResult.unauthorized
  | Except.ok payload =>
    match lookupClaim payload "sub" with
    | none => AuthResult.unauthorized
    | some _ => AuthResult.ok payload

/-- The exp claim, when present, holds an integer: the shape of every
token this service issues.  Scopes the validation characterization. -/
def expClaimIntOrAbsent (m : Claims) : Bool :=
  match lookupClaim m "exp" with
  | none => true
  | some (JValue.num _) => true
  | some (JValue.str _) => false

theorem lookupClaim_append (m l : Claims) (k : String) :
    lookupClaim (m ++ l) k
      = match lookupClaim m k with
        | some v => some v
        | none => lookupClaim l k := by
  induction m with
  | nil => simp [lookupClaim]
  | cons p rest ih =>
    obtain ⟨k2, v2⟩ := p
    by_cases h : k2 = k <;> simp [lookupClaim, h, ih]

theorem setClaim_of_absent (m : Claims) (k : String) (v : JValue)
    (h : lookupClaim m k = none) : setClaim m k v = m ++ [(k, v)] := by
  induction m with
  | nil => simp [setClaim]
  | cons p rest ih =>
    obtain ⟨k2, v2⟩ := p
    by_cases hk : k2 = k
    · rw [lookupClaim, if_pos hk] at h
      cases h
    · rw [lookupClaim, if_neg hk] at h
      simp [setClaim, hk, ih h]

/-! ### Credential engine: claim theorems -/

/-- Claim C2: the two-stage derivation round-trips.  verify_password
accepts the hash of the same password at any salt, rejects the hash of a
different password (the digest stage is collision-free in the model),
and two hashes of one password at distinct salts differ as stored hashes
while both still verify. -/
theorem c2_password_hashing (p p2 : String) (s1 s2 : Nat)
    (hp : p ≠ p2) (hs : s1 ≠ s2) :
    verify_password p (get_password_hash p s1) = true
    ∧ verify_password p (get_password_hash p2 s1) = false
    ∧ get_password_hash p s1 ≠ get_password_hash p s2
    ∧ verify_password p (get_password_hash p s2) = true := by
  refine ⟨?_, ?_, ?_, ?_⟩
  · simp [verify_password, get_password_hash, pwd_context_verify,
      pwd_context_hash, bcrypt_kdf]
  · have hne : sha256_hexdigest p ≠ sha256_hexdigest p2 :=
      fun hcontra => hp (sha256_hexdigest_injective p p2 hcontra)
    simp [verify_password, get_password_hash, pwd_context_verify,
      pwd_context_hash, bcrypt_kdf, hne]
  · intro hcontra
    exact hs (congrArg BcryptHash.salt hcontra)
  · simp [verify_password, get_password_hash, pwd_context_verify,
      pwd_context_hash, bcrypt_kdf]

/-- Witness for C2 at passwords a and b and salts 0 and 1. -/
theorem c2_witness :
    ("a" : String) ≠ "b" ∧ (0 : Nat) ≠ 1
    ∧ (verify_password "a" (get_password_hash "a" 0) = true
      ∧ verify_password "a" (get_password_hash "b" 0) = false
      ∧ get_password_hash "a" 0 ≠ get_password_hash "a" 1
      ∧ verify_password "a" (get_password_hash "a" 1) = true) :=
  ⟨by decide, by decide, c2_password_hashing "a" "b" 0 1 (by decide) (by decide)⟩

/-- Claim C3, amended: validating immediately after issuance succeeds with
no store lookup, and returns the issued token's claim set: every claim of
the mapping given to issuance is returned unmodified, the subject in
particular, plus the expiration claim that issuance added (so the returned
mapping is the given one extended by exp, not equal to it; see the
counterexample). -/
theorem c3_token_roundtrip (secret : String) (m : Claims) (v : JValue)
    (ttl now : Int) (httl : 0 < ttl)
    (hsub : lookupClaim m "sub" = some v)
    (hexp : lookupClaim m "exp" = none) :
    get_current_user (create_access_token m (some ttl) secret now) secret now
      = AuthResult.ok (m ++ [("exp", JValue.num (now + ttl))])
    ∧ lookupClaim (m ++ [("exp", JValue.num (now + ttl))]) "sub" = some v
    ∧ (∀ k, k ≠ "exp" →
        lookupClaim (m ++ [("exp", JValue.num (now + ttl))]) k = lookupClaim m k)
    ∧ lookupClaim (m ++ [("exp", JValue.num (now + ttl))]) "exp"
        = some (JValue.num (now + ttl)) := by
  have hne0 : ¬ ttl = 0 := by omega
  have hada : setClaim m "exp" (JValue.num (now + ttl))
      = m ++ [("exp", JValue.num (now + ttl))] :=
    setClaim_of_absent m "exp" _ hexp
  have htok : create_access_token m (some ttl) secret now
      = jwt_encode secret (m ++ [("exp", JValue.num (now + ttl))]) := by
    simp only [create_access_token]
    rw [if_neg hne0, hada]
  have hexp2 : lookupClaim (m ++ [("exp", JValue.num (now + ttl))]) "exp"
      = some (JValue.num (now + ttl)) := by
    rw [lookupClaim_append, hexp]
    simp [lookupClaim]
  have hsub2 : lookupClaim (m ++ [("exp", JValue.num (now + ttl))]) "sub"
      = some v := by
    rw [lookupClaim_append, hsub]
  have harith : ¬ (now + ttl < now) := by omega
  refine ⟨?_, hsub2, ?_, hexp2⟩
  · rw [htok]
    simp [get_current_user, jwt_decode, jwt_encode, hexp2, hsub2, harith]
  · intro k hk
    have hk2 : ¬ "exp" = k := fun hh => hk hh.symm
    cases hmk : lookupClaim m k with
    | some w => rw [lookupClaim_append, hmk]
    | none =>
      rw [lookupClaim_append, hmk]
      simp [lookupClaim, hk2]

/-- Witness for C3 at claims sub u1, ttl 60 seconds, clock 0. -/
theorem c3_witness :
    0 < (60 : Int)
    ∧ lookupClaim [("sub", JValue.str "u1")] "sub" = some (JValue.str "u1")
    ∧ lookupClaim [("sub", JValue.str "u1")] "exp" = none
    ∧ get_current_user
        (create_access_token [("sub", JValue.str "u1")] (some 60) "k" 0) "k" 0
      = AuthResult.ok ([("sub", JValue.str "u1")] ++ [("exp", JValue.num (0 + 60))]) :=
  ⟨by decide, by decide, by decide,
    (c3_token_roundtrip "k" [("sub", JValue.str "u1")] (JValue.str "u1") 60 0
      (by decide) (by decide) (by decide)).1⟩

/-- Counterexample to C3 as frozen: validating right after issuing over
the mapping sub u1 does not return that mapping unmodified; issuance
added the exp claim, so the validated claim set is the mapping extended
by exp 60. -/
theorem c3_counterexample :
    get_current_user
        (create_access_token [("sub", JValue.str "u1")] (some 60) "k" 0) "k" 0
      ≠ AuthResult.ok [("sub", JValue.str "u1")]
    ∧ get_current_user
        (create_access_token [("sub", JValue.str "u1")] (some 60) "k" 0) "k" 0
      = AuthResult.ok [("sub", JValue.str "u1"), ("exp", JValue.num 60)] :=
  ⟨by decide, by decide⟩

/-- Claim C4, amended: for a signed token whose exp claim, when present,
is an integer, validation treats the bearer as unauthenticated exactly
when the signature does not verify under the service secret, or the exp
claim is present with a value strictly in the past, or the sub claim is
absent; and every malformed token is rejected.  A well-formed, correctly
signed token with a subject and no exp claim is accepted, contrary to the
frozen claim (see the counterexample). -/
theorem c4_validate_reject_iff (secret : String) (t : SignedToken) (now : Int)
    (hexp : expClaimIntOrAbsent t.payload = true) :
    (get_current_user (TokenWire.signed t) secret now = AuthResult.unauthorized
      ↔ (t.sig ≠ hmac_sign secret t.payload
         ∨ (∃ e, lookupClaim t.payload "exp" = some (JValue.num e) ∧ e < now)
         ∨ lookupClaim t.payload "sub" = none))
    ∧ (∀ g, get_current_user (TokenWire.malformed g) secret now
        = AuthResult.unauthorized) := by
  constructor
  · by_cases hsig : t.sig = hmac_sign secret t.payload
    · cases hexpv : lookupClaim t.payload "exp" with
      | none =>
        cases hsubv : lookupClaim t.payload "sub" with
        | none => simp [get_current_user, jwt_decode, hsig, hexpv, hsubv]
        | some w => simp [get_current_user, jwt_decode, hsig, hexpv, hsubv]
      | some v =>
        cases v with
        | str s2 =>
          rw [expClaimIntOrAbsent, hexpv] at hexp
          cases hexp
        | num e0 =>
          by_cases hlt : e0 < now
          · simp [get_current_user, jwt_decode, hsig, hexpv, hlt]
          · cases hsubv : lookupClaim t.payload "sub" with
            | none => simp [get_current_user, jwt_decode, hsig, hexpv, hlt, hsubv]
            | some w => simp [get_current_user, jwt_decode, hsig, hexpv, hlt, hsubv]
    · simp [get_current_user, jwt_decode, hsig]
  · intro g
    simp [get_current_user, jwt_decode]

/-- Witness for C4: a correctly signed token with sub u1 and exp 50,
validated at second 100, is rejected as expired. -/
theorem c4_witness :
    get_current_user
        (TokenWire.signed
          ⟨[("sub", JValue.str "u1"), ("exp", JValue.num 50)],
            ("k", [("sub", JValue.str "u1"), ("exp", JValue.num 50)])⟩) "k" 100
      = AuthResult.unauthorized :=
  (c4_validate_reject_iff "k"
      ⟨[("sub", JValue.str "u1"), ("exp", JValue.num 50)],
        ("k", [("sub", JValue.str "u1"), ("exp", JValue.num 50)])⟩ 100
      (by decide)).1.mpr
    (Or.inr (Or.inl ⟨50, by decide, by decide⟩))

/-- Counterexample to C4 as frozen: a well-formed token correctly signed
with the service secret, carrying sub u1 and no exp claim at all, is
accepted by validation at second 100, not rejected. -/
theorem c4_counterexample :
    get_current_user
        (TokenWire.signed
          ⟨[("sub", JValue.str "u1")], ("k", [("sub", JValue.str "u1")])⟩) "k" 100
      ≠ AuthResult.unauthorized
    ∧ get_current_user
        (TokenWire.signed
          ⟨[("sub", JValue.str "u1")], ("k", [("sub", JValue.str "u1")])⟩) "k" 100
      = AuthResult.ok [("sub", JValue.str "u1")] :=
  ⟨by decide, by decide⟩

/-- Claim C5, amended: create_access_token performs no validation of the
secret: for every secret, the empty string included, it signs and returns
a token whose signature was made with that secret, raising nothing; the
configured secret merely defaults to the literal your-secret-key when the
environment variable is unset.  No ConfigurationError exists in the
code. -/
theorem c5_no_secret_validation (secret : String) (data : Claims)
    (delta : Option Int) (now : Int) :
    (∃ st : SignedToken, create_access_token data delta secret now
        = TokenWire.signed st ∧ st.sig.1 = secret)
    ∧ settings_JWT_SECRET none = "your-secret-key" := by
  refine ⟨?_, rfl⟩
  simp only [create_access_token, jwt_encode]
  exact ⟨_, rfl, rfl⟩

/-- Counterexample to C5 as frozen: issuing with the empty secret does not
fail; it signs the claim set with the empty secret and returns the
token. -/
theorem c5_counterexample :
    create_access_token [("sub", JValue.str "u1")] (some 60) "" 0
      = TokenWire.signed
          ⟨[("sub", JValue.str "u1"), ("exp", JValue.num 60)],
            ("", [("sub", JValue.str "u1"), ("exp", JValue.num 60)])⟩ := by
  decide

/-- Claim C10: a token whose signature verifies under the service secret
and whose exp claim lies strictly in the future is still rejected with
the same uniform 401 (could not validate credentials, the only
authentication failure the code produces) when its payload has no sub
claim. -/
theorem c10_missing_sub_rejected (secret : String) (t : SignedToken)
    (now e : Int)
    (hsig : t.sig = hmac_sign secret t.payload)
    (hexp : lookupClaim t.payload "exp" = some (JValue.num e))
    (hfuture : now < e)
    (hsub : lookupClaim t.payload "sub" = none) :
    get_current_user (TokenWire.signed t) secret now = AuthResult.unauthorized := by
  have hlt : ¬ e < now := by omega
  simp [get_current_user, jwt_decode, hsig, hexp, hlt, hsub]

/-- Witness for C10: a correctly signed, unexpired token carrying only
exp 100 and no sub, validated at second 0, is rejected. -/
theorem c10_witness :
    get_current_user
        (TokenWire.signed ⟨[("exp", JValue.num 100)], ("k", [("exp", JValue.num 100)])⟩)
        "k" 0
      = AuthResult.unauthorized :=
  c10_missing_sub_rejected "k"
    ⟨[("exp", JValue.num 100)], ("k", [("exp", JValue.num 100)])⟩ 0 100
    (by decide) (by decide) (by decide) (by decide)
